import Mathlib

/-
Verification of the tool-call orchestration engine of the canvas-mcp
fast-agent service.

Shallow embedding of:
  - api/services/llm_service.py : LLMService.generate_response,
    _generate_non_stream_response, _generate_stream_response,
    _format_messages_for_api
  - api/main.py : execute_mcp_tool (the Tool Invoker)

External collaborators (the DeepSeek completion client, the json module,
the asyncio event loop, the MCP HTTP transport) are modelled as
parameters / outcome types: the completion responses, the JSON parser
and the completion order of concurrently dispatched tool tasks are
inputs to the embedded orchestrator, and the HTTP transport outcome is
an input to the embedded tool invoker.
-/

/-- JSON values (the fragment without floats, which none of the verified
paths require).  Models the Python values produced by json.loads. -/
inductive Json where
  | null
  | bool (b : Bool)
  | num (n : Int)
  | str (s : String)
  | arr (items : List Json)
  | obj (fields : List (String × Json))

/-- Python dict .get on a JSON object field list (first match; Python
dicts have unique keys). -/
def jget (fields : List (String × Json)) (k : String) : Option Json :=
  match fields with
  | [] => none
  | (k2, v) :: rest => if k = k2 then some v else jget rest k

mutual
/-- Python repr of a JSON-shaped value (string escaping not modelled:
the verified inputs contain no quotes or control characters). -/
def pyRepr : Json → String
  | Json.null => "None"
  | Json.bool b => if b then "True" else "False"
  | Json.num n => toString n
  | Json.str s => "\x27" ++ s ++ "\x27"
  | Json.arr items => "[" ++ pyReprList items ++ "]"
  | Json.obj fields => "\x7b" ++ pyReprFields fields ++ "\x7d"

def pyReprList : List Json → String
  | [] => ""
  | [x] => pyRepr x
  | x :: y :: rest => pyRepr x ++ ", " ++ pyReprList (y :: rest)

def pyReprFields : List (String × Json) → String
  | [] => ""
  | [(k, v)] => "\x27" ++ k ++ "\x27: " ++ pyRepr v
  | (k, v) :: p :: rest =>
      "\x27" ++ k ++ "\x27: " ++ pyRepr v ++ ", " ++ pyReprFields (p :: rest)
end

/-- Python str() of a JSON-shaped value: identity on strings, repr-like
otherwise.  Models the str() coercion the code applies in f-strings. -/
def pyStr : Json → String
  | Json.str s => s
  | j => pyRepr j

mutual
/-- json.dumps with default separators (", " and ": "); string escaping
not modelled, as for pyRepr. -/
def dumps : Json → String
  | Json.null => "null"
  | Json.bool b => if b then "true" else "false"
  | Json.num n => toString n
  | Json.str s => "\"" ++ s ++ "\""
  | Json.arr items => "[" ++ dumpsList items ++ "]"
  | Json.obj fields => "\x7b" ++ dumpsFields fields ++ "\x7d"

def dumpsList : List Json → String
  | [] => ""
  | [x] => dumps x
  | x :: y :: rest => dumps x ++ ", " ++ dumpsList (y :: rest)

def dumpsFields : List (String × Json) → String
  | [] => ""
  | [(k, v)] => "\"" ++ k ++ "\": " ++ dumps v
  | (k, v) :: p :: rest =>
      "\"" ++ k ++ "\": " ++ dumps v ++ ", " ++ dumpsFields (p :: rest)
end

/-- A tool-call request as delivered inside the first completion
response (openai ChatCompletionMessageToolCall: id, function.name,
function.arguments as a raw JSON-encoded string). -/
structure ToolCall where
  id : String
  name : String
  arguments : String
deriving DecidableEq

/-- One conversation-turn dictionary.  Each field models one key of the
Python dict: `none` is key-absent; for content / tool_calls /
tool_call_id an inner `none` is the key present with value None.
(The dynamic dicts in this code hold string roles/contents; turns whose
present values have other types are outside the model.) -/
structure Turn where
  role : Option String
  content : Option (Option String)
  tool_calls : Option (Option (List ToolCall))
  tool_call_id : Option (Option String)
  name : Option String
deriving DecidableEq

/-- The message object of the first (non-streaming) completion
response: response.choices[0].message. -/
structure RespMessage where
  content : Option String
  tool_calls : Option (List ToolCall)

/-- One prepared tool task: the correlation id and name recorded in
tool_call_details plus the parsed arguments handed to the executor. -/
structure ToolTask where
  id : String
  name : String
  args : Json

/-- The settled outcome of one tool task as observed after
asyncio.gather(..., return_exceptions=True): either the value returned
by the executor coroutine, or the exception it raised (carrying its
str()). -/
inductive ToolOutcome where
  | ok (s : String)
  | exc (msg : String)

/-- One request issued to the completion client
(client.chat.completions.create): the formatted message list, the tools
argument, the tool_choice argument and the stream flag. -/
structure CompletionCall where
  messages : List Turn
  tools : Option (List Json)
  tool_choice : Option String
  stream : Bool

/-- The two Python list objects the orchestrator can name: the caller
`messages` argument and the local `current_messages`. -/
inductive Ref where
  | callerMessages
  | currentMessages
deriving DecidableEq

/-- The heap holding the two lists, to make the aliasing of
`current_messages = messages[:]` versus in-place append observable. -/
structure Store where
  caller : List Turn
  current : List Turn

/-- list.append(t) on the list named by r. -/
def Store.appendTurn (s : Store) (r : Ref) (t : Turn) : Store :=
  match r with
  | Ref.callerMessages => { s with caller := s.caller ++ [t] }
  | Ref.currentMessages => { s with current := s.current ++ [t] }

/-- A sequence of appends to the list named by r. -/
def Store.appendTurns (s : Store) (r : Ref) (ts : List Turn) : Store :=
  ts.foldl (fun st t => st.appendTurn r t) s

/-- The value returned to the caller: a full string (non-streaming) or
the finite fragment sequence produced by the async generator. -/
inductive GenResult where
  | text (s : String)
  | fragments (fs : List String)
deriving DecidableEq

/-- Python `x or default` on an optional string: None and "" are falsy. -/
def pyOr (c : Option String) (d : String) : String :=
  match c with
  | some s => if s = "" then d else s
  | none => d

/-- The fixed configuration-error message returned when self.client is
None (generate_response, llm_service.py lines 49-57). -/
def configErrorMsg : String :=
  "I\x27m sorry, but the AI service is not properly configured. Please check the DEEPSEEK_API_KEY environment variable."

/-- The "no answer" sentinel (llm_service.py line 188). -/
def noAnswerMsg : String := "Sorry, I couldn\x27t generate a response."

/-- Per-turn body of _format_messages_for_api (llm_service.py lines
334-355, the dict branch; every message reaching this helper in the
orchestrator is a dict).  Returns the formatted message, or none when
the turn is skipped. -/
def formatTurn (m : Turn) : Option Turn :=
  match m.role with
  | none => none
  | some r =>
    if r = "" then none
    else if m.content.isSome ∨ m.tool_calls.isSome ∨ r = "tool" then
      let contentAdd : Option (Option String) :=
        match m.content with
        | some (some s) => some (some s)
        | _ => none
      let toolCallsAdd : Option (Option (List ToolCall)) :=
        if r = "assistant" then m.tool_calls else none
      if r = "tool" then
        some { role := some r,
               content := some (m.content.getD (some "")),
               tool_calls := toolCallsAdd,
               tool_call_id := some (m.tool_call_id.getD none),
               name := none }
      else if r = "assistant" then
        if contentAdd.isSome ∨ toolCallsAdd.isSome then
          some { role := some r, content := contentAdd,
                 tool_calls := toolCallsAdd, tool_call_id := none,
                 name := none }
        else none
      else
        if contentAdd.isSome then
          some { role := some r, content := contentAdd, tool_calls := none,
                 tool_call_id := none, name := none }
        else none
    else none

/-- _format_messages_for_api (llm_service.py lines 330-373): the loop
appending each formatted turn in order. -/
def _format_messages_for_api : List Turn → List Turn
  | [] => []
  | m :: rest =>
    match formatTurn m with
    | some u => u :: _format_messages_for_api rest
    | none => _format_messages_for_api rest

/-- The first-call message projection (llm_service.py lines 80 and 213):
keep turns having both a role key and a content key, projected to
exactly those two keys. -/
def firstFormat (msgs : List Turn) : List Turn :=
  msgs.filterMap fun m =>
    match m.role, m.content with
    | some r, some c =>
        some { role := some r, content := some c, tool_calls := none,
               tool_call_id := none, name := none }
    | _, _ => none

/-- formatted_tools (llm_service.py lines 81 and 214): the tools list if
truthy and all entries are dicts, else None.  Tool schemas are JSON
dicts. -/
def fmtTools (tools : Option (List Json)) : Option (List Json) :=
  match tools with
  | some ts =>
      if !ts.isEmpty && ts.all (fun t => match t with | Json.obj _ => true | _ => false)
      then some ts else none
  | none => none

/-- The first completion request (llm_service.py lines 83-91 and
216-224): formatted messages, formatted tools, tool_choice auto iff
tools attached, and stream=False written literally in the source. -/
def mkFirstCall (msgs : List Turn) (tools : Option (List Json)) : CompletionCall :=
  { messages := firstFormat msgs,
    tools := fmtTools tools,
    tool_choice := if (fmtTools tools).isSome then some "auto" else none,
    stream := false }


/-- The environment of one orchestration run: the behavior of the
external collaborators during that run.  parse models json.loads;
firstResp is the message of the first completion response;
secondContent / secondChunks are the second completion response in
non-streaming / streaming mode (each chunk entry is the delta content
of one stream chunk, none when the chunk carries no delta content);
completionOrder is the order in which the concurrently dispatched tool
tasks settle (task indices in completion order). -/
structure Env where
  parse : String → Option Json
  firstResp : RespMessage
  secondContent : Option String
  secondChunks : List (Option String)
  completionOrder : List Nat

/-- The tool executor handed to the service (execute_mcp_tool or any
other callable), as observed after awaiting: name and parsed args to
settled outcome. -/
def Executor : Type := String → Json → ToolOutcome

/-- Python truthiness of response_message.tool_calls: None and the
empty list are falsy (the `if tool_calls and tool_executor` guard). -/
def truthyToolCalls : Option (List ToolCall) → Option (List ToolCall)
  | some (tc :: rest) => some (tc :: rest)
  | _ => none

/-- The tool-result turn synthesized on a JSON argument-parse failure
(llm_service.py lines 127-130 and 256-259). -/
def invalidArgsTurn (tc : ToolCall) : Turn :=
  { role := some "tool",
    content := some (some ("Error: Invalid arguments format received from LLM for tool " ++ tc.name ++ ".")),
    tool_calls := none,
    tool_call_id := some (some tc.id),
    name := some tc.name }

/-- The tool-result turn appended for one settled task (llm_service.py
lines 143-158 and 272-285): str(result) on success, the error text on a
gathered exception. -/
def toolResultTurn (t : ToolTask) (o : ToolOutcome) : Turn :=
  { role := some "tool",
    content := some (some (match o with
      | ToolOutcome.ok s => s
      | ToolOutcome.exc m => "Error executing tool " ++ t.name ++ ": " ++ m)),
    tool_calls := none,
    tool_call_id := some (some t.id),
    name := some t.name }

/-- The assistant turn appended before tool execution:
response_message.model_dump(exclude_unset=True) (llm_service.py lines
105 and 238). -/
def assistantToolTurn (r : RespMessage) : Turn :=
  { role := some "assistant",
    content := some r.content,
    tool_calls := some r.tool_calls,
    tool_call_id := none,
    name := none }

/-- The per-request preparation loop (llm_service.py lines 110-136 and
242-265): for each requested call in order, json.loads the arguments;
on failure append the invalid-arguments turn (to current_messages,
i.e., during the loop), on success record the task for concurrent
dispatch.  Returns (error turns in loop order, tasks in loop order). -/
def prepToolCalls (parse : String → Option Json) : List ToolCall → List Turn × List ToolTask
  | [] => ([], [])
  | tc :: rest =>
    let p := prepToolCalls parse rest
    match parse tc.arguments with
    | some a => (p.1, { id := tc.id, name := tc.name, args := a } :: p.2)
    | none => (invalidArgsTurn tc :: p.1, p.2)

/-- The outcome stored by asyncio.gather into slot i, looked up from the
completion sequence. -/
def findSlot (i : Nat) : List (Nat × ToolOutcome) → Option ToolOutcome
  | [] => none
  | (j, o) :: rest => if i = j then some o else findSlot i rest

/-- asyncio.gather(*tasks, return_exceptions=True): the tasks settle in
completion order, but gather places each outcome in the slot of the
task that produced it, so the results list is indexed by original task
position.  The default is unreachable when every task settles (gather
awaits all of them). -/
def gatherBy (order : List Nat) (outcomes : List ToolOutcome) : List ToolOutcome :=
  let completed := order.filterMap (fun j => (outcomes.get? j).map (fun o => (j, o)))
  (List.range outcomes.length).map
    (fun i => (findSlot i completed).getD (ToolOutcome.exc "task never settled"))

/-- The whole tool phase shared verbatim by the two flows
(llm_service.py lines 102-158 and 235-285): append the dumped assistant
turn, run the preparation loop (its error turns land before any result
turn), dispatch the tasks concurrently, gather, and append one result
turn per task in task order.  Returns the appended turn segment and the
dispatched invocations. -/
def runToolPhase (env : Env) (e : Executor) (resp : RespMessage)
    (tcs : List ToolCall) : List Turn × List ToolTask :=
  let p := prepToolCalls env.parse tcs
  let outcomes := p.2.map (fun t => e t.name t.args)
  let results := gatherBy env.completionOrder outcomes
  let resTurns := (p.2.zip results).map (fun q => toolResultTurn q.1 q.2)
  (assistantToolTurn resp :: (p.1 ++ resTurns), p.2)

/-- The output of one orchestration run: the completion requests issued
in order, the tool invocations dispatched, the final heap (caller list
and current_messages), and the value produced for the caller. -/
structure RunOut where
  calls : List CompletionCall
  invocations : List ToolTask
  store : Store
  result : GenResult

/-- _generate_non_stream_response (llm_service.py lines 64-192) for a
configured client: copy the caller list, make the first (non-streaming)
call, execute the tool phase when tool calls are present and an
executor was provided, then either make the second non-streaming call
over the reformatted transcript or answer from the first response. -/
def nonStreamRun (env : Env) (msgs : List Turn) (tools : Option (List Json))
    (ex : Option Executor) : RunOut :=
  let st0 : Store := { caller := msgs, current := [] }
  let st1 := { st0 with current := st0.caller }
  let firstCall := mkFirstCall msgs tools
  let resp := env.firstResp
  match truthyToolCalls resp.tool_calls, ex with
  | some tcs, some e =>
      let ph := runToolPhase env e resp tcs
      let st2 := st1.appendTurns Ref.currentMessages ph.1
      let secondCall : CompletionCall :=
        { messages := _format_messages_for_api st2.current,
          tools := none, tool_choice := none, stream := false }
      { calls := [firstCall, secondCall], invocations := ph.2, store := st2,
        result := GenResult.text (pyOr env.secondContent noAnswerMsg) }
  | _, _ =>
      { calls := [firstCall], invocations := [], store := st1,
        result := GenResult.text (pyOr resp.content noAnswerMsg) }

/-- The streamed fragments of the second call (llm_service.py lines
309-313): each chunk delta content is yielded iff truthy. -/
def truthyFrags (chunks : List (Option String)) : List String :=
  chunks.filterMap fun c =>
    match c with
    | some s => if s = "" then none else some s
    | none => none

/-- _generate_stream_response (llm_service.py lines 194-328) for a
configured client: same first call and tool phase as the non-streaming
flow; the second call is streaming and its truthy deltas are the
yielded fragments; with no tool calls the first response content is
yielded as one fragment ("" when falsy). -/
def streamRun (env : Env) (msgs : List Turn) (tools : Option (List Json))
    (ex : Option Executor) : RunOut :=
  let st0 : Store := { caller := msgs, current := [] }
  let st1 := { st0 with current := st0.caller }
  let firstCall := mkFirstCall msgs tools
  let resp := env.firstResp
  match truthyToolCalls resp.tool_calls, ex with
  | some tcs, some e =>
      let ph := runToolPhase env e resp tcs
      let st2 := st1.appendTurns Ref.currentMessages ph.1
      let secondCall : CompletionCall :=
        { messages := _format_messages_for_api st2.current,
          tools := none, tool_choice := none, stream := true }
      { calls := [firstCall, secondCall], invocations := ph.2, store := st2,
        result := GenResult.fragments (truthyFrags env.secondChunks) }
  | _, _ =>
      { calls := [firstCall], invocations := [], store := st1,
        result := GenResult.fragments [pyOr resp.content ""] }

/-- generate_response (llm_service.py lines 28-62): when self.client is
None return the fixed configuration-error message (a one-element
generator when streaming) without touching client or executor;
otherwise dispatch on the stream flag. -/
def generate_response (configured : Bool) (env : Env) (msgs : List Turn)
    (tools : Option (List Json)) (ex : Option Executor) (stream : Bool) : RunOut :=
  if configured then
    if stream then streamRun env msgs tools ex
    else nonStreamRun env msgs tools ex
  else
    { calls := [], invocations := [],
      store := { caller := msgs, current := [] },
      result := if stream then GenResult.fragments [configErrorMsg]
                else GenResult.text configErrorMsg }

/-- The transport-level outcome of the HTTP POST to the MCP execution
endpoint (api/main.py lines 153-161): the await can raise
httpx.TimeoutException or another httpx.RequestError; otherwise a
response arrives with a status code and a body that response.json()
either parses (some) or rejects (none). -/
inductive Transport where
  | timeout
  | requestError
  | resp (status : Nat) (body : Option Json)

/-- The Python exception classes distinguished by the except clauses of
execute_mcp_tool (api/main.py lines 186-205), in catch order:
httpx.TimeoutException, httpx.RequestError, json.JSONDecodeError, and
every other exception (httpx.HTTPStatusError from raise_for_status,
AttributeError from .get on a non-dict) caught by except Exception. -/
inductive PyExc where
  | timeoutExc
  | requestErrExc
  | jsonDecodeExc
  | httpStatusExc
  | attrErrExc
deriving DecidableEq

/-- The fallthrough of the success branch (api/main.py lines 177-184):
the envelope shape was absent, so check result_data for a JSON-RPC
"error" member (whose .get raises on a non-dict value), else serialize
the result member back to JSON text. -/
def mcpFallback (toolName : String) (fields : List (String × Json))
    (mcpResult : Json) : Except PyExc String :=
  match jget fields "error" with
  | some err =>
    match err with
    | Json.obj ef =>
        let msg := match jget ef "message" with
          | some m => pyStr m
          | none => "Unknown error"
        Except.ok ("Error from tool \x27" ++ toolName ++ "\x27: " ++ msg)
    | _ => Except.error PyExc.attrErrExc
  | none => Except.ok (dumps mcpResult)

/-- The try-block of execute_mcp_tool (api/main.py lines 146-184):
post, raise_for_status, response.json(), result_data.get("result", {}),
then extract content[0].text, falling back to serialized JSON, with the
JSON-RPC error branch in between.  Each raise point is an Except.error
carrying the exception class the except clauses dispatch on. -/
def mcpBody (toolName : String) (t : Transport) : Except PyExc String :=
  match t with
  | Transport.timeout => Except.error PyExc.timeoutExc
  | Transport.requestError => Except.error PyExc.requestErrExc
  | Transport.resp st b =>
    if st < 200 ∨ 300 ≤ st then Except.error PyExc.httpStatusExc
    else
      match b with
      | none => Except.error PyExc.jsonDecodeExc
      | some j =>
        match j with
        | Json.obj fields =>
          match (jget fields "result").getD (Json.obj []) with
          | Json.obj rf =>
            (match jget rf "content" with
             | some c =>
               (match c with
                | Json.arr (first :: _) =>
                  (match first with
                   | Json.obj ff =>
                     (match jget ff "text" with
                      | some tv => Except.ok (pyStr tv)
                      | none => Except.ok (dumps c))
                   | _ => Except.ok (dumps c))
                | _ => Except.ok (dumps c))
             | none =>
               mcpFallback toolName fields ((jget fields "result").getD (Json.obj [])))
          | res => mcpFallback toolName fields res
        | _ => Except.error PyExc.attrErrExc

/-- execute_mcp_tool (api/main.py lines 140-205): the try-block result
when it succeeds, otherwise the string produced by the matching except
clause; except Exception makes the function total over its boundary. -/
def execute_mcp_tool (toolName : String) (t : Transport) : String :=
  match mcpBody toolName t with
  | Except.ok s => s
  | Except.error PyExc.timeoutExc =>
      "Error: Timeout waiting for tool " ++ toolName ++ " to execute."
  | Except.error PyExc.requestErrExc =>
      "Error: Could not connect to the tool execution server for " ++ toolName ++ "."
  | Except.error PyExc.jsonDecodeExc =>
      "Error: Received invalid response format from the tool execution server for " ++ toolName ++ "."
  | Except.error _ =>
      "Error: An unexpected error occurred while executing tool " ++ toolName ++ "."

/-- The Tool Invoker contract as the amended claim states it, written
as a direct case analysis (to be compared with execute_mcp_tool, which
is embedded from the source through its exception flow): timeout,
connection failure, non-2xx status and an unparseable body each yield
their descriptive error string; a well-shaped envelope yields the inner
text (stringified); otherwise a JSON-RPC error object yields an error
string naming the tool and the error message, a non-object body or
non-object error value yields the generic unexpected-error string, and
any other body serializes the result member (or its content member)
back to JSON text. -/
def toolInvokerSpecified (toolName : String) (t : Transport) : String :=
  match t with
  | Transport.timeout =>
      "Error: Timeout waiting for tool " ++ toolName ++ " to execute."
  | Transport.requestError =>
      "Error: Could not connect to the tool execution server for " ++ toolName ++ "."
  | Transport.resp st b =>
    if st < 200 ∨ 300 ≤ st then
      "Error: An unexpected error occurred while executing tool " ++ toolName ++ "."
    else
      match b with
      | none =>
          "Error: Received invalid response format from the tool execution server for " ++ toolName ++ "."
      | some (Json.obj fs) =>
        let res := (jget fs "result").getD (Json.obj [])
        match res with
        | Json.obj rf =>
          match jget rf "content" with
          | some (Json.arr (Json.obj ff :: rest)) =>
            (match jget ff "text" with
             | some tv => pyStr tv
             | none => dumps (Json.arr (Json.obj ff :: rest)))
          | some c => dumps c
          | none =>
            (match jget fs "error" with
             | some (Json.obj ef) =>
                 "Error from tool \x27" ++ toolName ++ "\x27: " ++
                   (match jget ef "message" with
                    | some m => pyStr m
                    | none => "Unknown error")
             | some _ =>
                 "Error: An unexpected error occurred while executing tool " ++ toolName ++ "."
             | none => dumps res)
        | _ =>
          (match jget fs "error" with
           | some (Json.obj ef) =>
               "Error from tool \x27" ++ toolName ++ "\x27: " ++
                 (match jget ef "message" with
                  | some m => pyStr m
                  | none => "Unknown error")
           | some _ =>
               "Error: An unexpected error occurred while executing tool " ++ toolName ++ "."
           | none => dumps res)
      | some _ =>
          "Error: An unexpected error occurred while executing tool " ++ toolName ++ "."

/-- json.loads restricted to the argument strings occurring in the
concrete scenarios below: the text \x7b\x7d (an empty JSON object)
parses to the empty object and the text "not json" fails to parse,
agreeing with Python json.loads on both inputs. -/
def sampleParse (s : String) : Option Json :=
  if s = "\x7b\x7d" then some (Json.obj []) else none

/-- A stub executor, as in the round-trip scenario of the spec. -/
def stubExec : Executor := fun _ _ => ToolOutcome.ok "CS101, CS202"

/-- The two tool-call requests of the mixed scenario: request index 0
parses, request index 1 has unparseable arguments. -/
def c1Tcs : List ToolCall :=
  [{ id := "a", name := "f", arguments := "\x7b\x7d" },
   { id := "b", name := "g", arguments := "not json" }]

/-- Environment of the mixed scenario: first response requests c1Tcs,
the single dispatched task settles (completion order [0]), the second
response answers "done". -/
def cexEnvC1 : Env :=
  { parse := sampleParse,
    firstResp := { content := some "c", tool_calls := some c1Tcs },
    secondContent := some "done",
    secondChunks := [],
    completionOrder := [0] }

/-- Environment with no tool calls and empty assistant content. -/
def cexEnvC5 : Env :=
  { parse := sampleParse,
    firstResp := { content := some "", tool_calls := none },
    secondContent := none,
    secondChunks := [],
    completionOrder := [] }

/-- Environment with no tool calls and non-empty assistant content. -/
def envPlain : Env :=
  { parse := sampleParse,
    firstResp := { content := some "hello", tool_calls := none },
    secondContent := none,
    secondChunks := [],
    completionOrder := [] }

/-- The shapes _format_messages_for_api can emit: a tool message (id
key always present, content defaulted), an assistant message with at
least one of content / tool_calls and content never an explicit None,
or a plain role+content message. -/
def FmtOut (u : Turn) : Prop :=
  (∃ v w, u = { role := some "tool", content := some v, tool_calls := none,
                tool_call_id := some w, name := none }) ∨
  (∃ ca ka, u = { role := some "assistant", content := ca, tool_calls := ka,
                  tool_call_id := none, name := none } ∧
     (ca = none ∨ ∃ s, ca = some (some s)) ∧ (ca.isSome ∨ ka.isSome)) ∨
  (∃ r s, u = { role := some r, content := some (some s), tool_calls := none,
                tool_call_id := none, name := none } ∧
     r ≠ "" ∧ r ≠ "tool" ∧ r ≠ "assistant")

theorem formatTurn_out {m u : Turn} (h : formatTurn m = some u) : FmtOut u := by
  rcases m with ⟨role, c, k, d, nm⟩
  cases role with
  | none => simp [formatTurn] at h
  | some r =>
    simp only [formatTurn] at h
    split at h
    · simp at h
    · split at h
      · split at h
        · rename_i hr hg htool
          subst htool
          left
          refine ⟨c.getD (some ""), d.getD none, ?_⟩
          have hu := (Option.some.inj h).symm
          rw [hu]
          simp
        · split at h
          · split at h
            · rename_i hr hg htool hassist hkeep
              subst hassist
              right; left
              rcases c with _ | (_ | s)
              · exact ⟨none, k, (Option.some.inj h).symm, Or.inl rfl,
                  Or.inr (hkeep.resolve_left (by decide))⟩
              · exact ⟨none, k, (Option.some.inj h).symm, Or.inl rfl,
                  Or.inr (hkeep.resolve_left (by decide))⟩
              · exact ⟨some (some s), k, (Option.some.inj h).symm,
                  Or.inr ⟨s, rfl⟩, Or.inl rfl⟩
            · simp at h
          · split at h
            · rename_i hr hg htool hassist hkeep
              right; right
              rcases c with _ | (_ | s)
              · exact absurd hkeep (by decide)
              · exact absurd hkeep (by decide)
              · exact ⟨r, s, (Option.some.inj h).symm, hr, htool, hassist⟩
            · simp at h
      · simp at h

theorem formatTurn_fixOut {u : Turn} (h : FmtOut u) : formatTurn u = some u := by
  rcases h with ⟨v, w, rfl⟩ | ⟨ca, ka, rfl, hca, hkeep⟩ | ⟨r, s, rfl, hr, htool, hassist⟩
  · simp [formatTurn]
  · rcases hca with rfl | ⟨s, rfl⟩
    · rcases ka with _ | kv
      · simp at hkeep
      · simp [formatTurn]
    · simp [formatTurn]
  · simp [formatTurn, hr, htool, hassist]

theorem formatTurn_fix {m u : Turn} (h : formatTurn m = some u) :
    formatTurn u = some u :=
  formatTurn_fixOut (formatTurn_out h)

theorem format_append (y z : List Turn) :
    _format_messages_for_api (y ++ z) =
      _format_messages_for_api y ++ _format_messages_for_api z := by
  induction y with
  | nil => rfl
  | cons m rest ih =>
    simp only [List.cons_append, _format_messages_for_api]
    cases formatTurn m <;> simp [ih]

theorem format_idem (x : List Turn) :
    _format_messages_for_api (_format_messages_for_api x) =
      _format_messages_for_api x := by
  induction x with
  | nil => rfl
  | cons m rest ih =>
    cases h : formatTurn m with
    | none => simp [_format_messages_for_api, h, ih]
    | some u =>
      simp only [_format_messages_for_api, h]
      rw [formatTurn_fix h]
      simp [ih]

theorem prepToolCalls_length (parse : String → Option Json) (tcs : List ToolCall) :
    (prepToolCalls parse tcs).1.length + (prepToolCalls parse tcs).2.length
      = tcs.length := by
  induction tcs with
  | nil => rfl
  | cons tc rest ih =>
    simp only [prepToolCalls]
    cases parse tc.arguments <;> simp <;> omega

theorem prepToolCalls_err_ids (parse : String → Option Json) (tcs : List ToolCall) :
    (prepToolCalls parse tcs).1.map Turn.tool_call_id =
      (tcs.filter fun tc => (parse tc.arguments).isNone).map
        (fun tc => some (some tc.id)) := by
  induction tcs with
  | nil => rfl
  | cons tc rest ih =>
    simp only [prepToolCalls]
    cases hp : parse tc.arguments <;>
      simp [List.filter_cons, hp, invalidArgsTurn, ih]

theorem prepToolCalls_task_ids (parse : String → Option Json) (tcs : List ToolCall) :
    (prepToolCalls parse tcs).2.map ToolTask.id =
      (tcs.filter fun tc => (parse tc.arguments).isSome).map ToolCall.id := by
  induction tcs with
  | nil => rfl
  | cons tc rest ih =>
    simp only [prepToolCalls]
    cases hp : parse tc.arguments <;>
      simp [List.filter_cons, hp, ih]

theorem prepToolCalls_err_mem (parse : String → Option Json) {tcs : List ToolCall}
    {tc : ToolCall} (hmem : tc ∈ tcs) (hfail : parse tc.arguments = none) :
    invalidArgsTurn tc ∈ (prepToolCalls parse tcs).1 := by
  induction tcs with
  | nil => simp at hmem
  | cons tc2 rest ih =>
    rcases List.mem_cons.mp hmem with rfl | hmem2
    · simp only [prepToolCalls, hfail]
      exact List.mem_cons_self _ _
    · simp only [prepToolCalls]
      cases parse tc2.arguments with
      | none => exact List.mem_cons_of_mem _ (ih hmem2)
      | some a => exact ih hmem2

theorem prepToolCalls_task_mem (parse : String → Option Json) {tcs : List ToolCall}
    {t : ToolTask} (ht : t ∈ (prepToolCalls parse tcs).2) :
    ∃ tc ∈ tcs, parse tc.arguments = some t.args ∧ t.id = tc.id ∧ t.name = tc.name := by
  induction tcs with
  | nil => simp [prepToolCalls] at ht
  | cons tc2 rest ih =>
    simp only [prepToolCalls] at ht
    cases hp : parse tc2.arguments with
    | none =>
      rw [hp] at ht
      obtain ⟨tc, h1, h2⟩ := ih ht
      exact ⟨tc, List.mem_cons_of_mem _ h1, h2⟩
    | some a =>
      rw [hp] at ht
      rcases List.mem_cons.mp ht with rfl | ht2
      · exact ⟨tc2, List.mem_cons_self _ _, hp, rfl, rfl⟩
      · obtain ⟨tc, h1, h2⟩ := ih ht2
        exact ⟨tc, List.mem_cons_of_mem _ h1, h2⟩

theorem findSlot_completed (outcomes : List ToolOutcome) {order : List Nat}
    {i : Nat} {o : ToolOutcome} (hi : i ∈ order) (ho : outcomes.get? i = some o) :
    findSlot i (order.filterMap (fun j => (outcomes.get? j).map (fun o2 => (j, o2))))
      = some o := by
  induction order with
  | nil => simp at hi
  | cons j rest ih =>
    rcases List.mem_cons.mp hi with rfl | hi2
    · simp only [List.filterMap_cons, ho, Option.map_some]
      simp [findSlot]
    · simp only [List.filterMap_cons]
      cases hj : outcomes.get? j with
      | none => exact ih hi2
      | some oj =>
        simp only [Option.map_some, findSlot]
        by_cases hij : i = j
        · subst hij
          rw [ho] at hj
          simp_all [findSlot]
        · simp only [if_neg hij]
          exact ih hi2

theorem gatherBy_eq {order : List Nat} (outcomes : List ToolOutcome)
    (h : ∀ i, i < outcomes.length → i ∈ order) :
    gatherBy order outcomes = outcomes := by
  unfold gatherBy
  apply List.ext_getElem
  · simp
  · intro i h1 h2
    simp only [List.getElem_map, List.getElem_range]
    have hlt : i < outcomes.length := by simpa using h1
    have ho : outcomes.get? i = some outcomes[i] := by
      rw [List.get?_eq_getElem?, List.getElem?_eq_getElem hlt]
    rw [findSlot_completed outcomes (h i hlt) ho]
    rfl

theorem zip_map_toolResult (ts : List ToolTask) (f : ToolTask → ToolOutcome) :
    (ts.zip (ts.map f)).map (fun q => toolResultTurn q.1 q.2) =
      ts.map (fun t => toolResultTurn t (f t)) := by
  induction ts with
  | nil => rfl
  | cons t rest ih => simp [ih]

theorem appendTurns_current_eq (ts : List Turn) :
    ∀ s : Store, s.appendTurns Ref.currentMessages ts =
      { caller := s.caller, current := s.current ++ ts } := by
  induction ts with
  | nil => intro s; simp [Store.appendTurns]
  | cons t rest ih =>
    intro s
    show Store.appendTurns _ _ _ = _
    rw [Store.appendTurns, List.foldl_cons]
    have : (Store.appendTurn s Ref.currentMessages t).appendTurns
        Ref.currentMessages rest =
        { caller := (Store.appendTurn s Ref.currentMessages t).caller,
          current := (Store.appendTurn s Ref.currentMessages t).current ++ rest } :=
      ih _
    rw [Store.appendTurns] at this
    rw [this]
    simp [Store.appendTurn]

theorem truthy_cons {tcs : List ToolCall} (hne : tcs ≠ []) :
    truthyToolCalls (some tcs) = some tcs := by
  cases tcs with
  | nil => exact absurd rfl hne
  | cons tc rest => rfl

theorem runToolPhase_eq (env : Env) (e : Executor) (resp : RespMessage)
    (tcs : List ToolCall)
    (hco : ∀ i, i < (prepToolCalls env.parse tcs).2.length →
      i ∈ env.completionOrder) :
    runToolPhase env e resp tcs =
      (assistantToolTurn resp ::
        ((prepToolCalls env.parse tcs).1 ++
          (prepToolCalls env.parse tcs).2.map
            (fun t => toolResultTurn t (e t.name t.args))),
       (prepToolCalls env.parse tcs).2) := by
  show (let p := prepToolCalls env.parse tcs;
    let outcomes := List.map (fun t => e t.name t.args) p.2;
    let results := gatherBy env.completionOrder outcomes;
    let resTurns := List.map (fun q => toolResultTurn q.1 q.2) (p.2.zip results);
    (assistantToolTurn resp :: (p.1 ++ resTurns), p.2)) = _
  simp only []
  rw [gatherBy_eq _ (by simpa using hco)]
  rw [zip_map_toolResult]

theorem nonStreamRun_def (env : Env) (msgs : List Turn) (tools : Option (List Json))
    (ex : Option Executor) :
    nonStreamRun env msgs tools ex =
      match truthyToolCalls env.firstResp.tool_calls, ex with
      | some tcs, some e =>
          { calls := [mkFirstCall msgs tools,
              { messages := _format_messages_for_api
                  ((Store.appendTurns ⟨msgs, msgs⟩ Ref.currentMessages
                    (runToolPhase env e env.firstResp tcs).1).current),
                tools := none, tool_choice := none, stream := false }],
            invocations := (runToolPhase env e env.firstResp tcs).2,
            store := Store.appendTurns ⟨msgs, msgs⟩ Ref.currentMessages
              (runToolPhase env e env.firstResp tcs).1,
            result := GenResult.text (pyOr env.secondContent noAnswerMsg) }
      | _, _ =>
          { calls := [mkFirstCall msgs tools], invocations := [],
            store := ⟨msgs, msgs⟩,
            result := GenResult.text (pyOr env.firstResp.content noAnswerMsg) } :=
  rfl

theorem streamRun_def (env : Env) (msgs : List Turn) (tools : Option (List Json))
    (ex : Option Executor) :
    streamRun env msgs tools ex =
      match truthyToolCalls env.firstResp.tool_calls, ex with
      | some tcs, some e =>
          { calls := [mkFirstCall msgs tools,
              { messages := _format_messages_for_api
                  ((Store.appendTurns ⟨msgs, msgs⟩ Ref.currentMessages
                    (runToolPhase env e env.firstResp tcs).1).current),
                tools := none, tool_choice := none, stream := true }],
            invocations := (runToolPhase env e env.firstResp tcs).2,
            store := Store.appendTurns ⟨msgs, msgs⟩ Ref.currentMessages
              (runToolPhase env e env.firstResp tcs).1,
            result := GenResult.fragments (truthyFrags env.secondChunks) }
      | _, _ =>
          { calls := [mkFirstCall msgs tools], invocations := [],
            store := ⟨msgs, msgs⟩,
            result := GenResult.fragments [pyOr env.firstResp.content ""] } :=
  rfl

theorem nonStreamRun_tool_eq (env : Env) (msgs : List Turn)
    (tools : Option (List Json)) (e : Executor) (tcs : List ToolCall)
    (hne : tcs ≠ []) (htc : env.firstResp.tool_calls = some tcs)
    (hco : ∀ i, i < (prepToolCalls env.parse tcs).2.length →
      i ∈ env.completionOrder) :
    nonStreamRun env msgs tools (some e) =
      { calls := [mkFirstCall msgs tools,
          { messages := _format_messages_for_api
              (msgs ++ assistantToolTurn env.firstResp ::
                ((prepToolCalls env.parse tcs).1 ++
                  (prepToolCalls env.parse tcs).2.map
                    (fun t => toolResultTurn t (e t.name t.args)))),
            tools := none, tool_choice := none, stream := false }],
        invocations := (prepToolCalls env.parse tcs).2,
        store := { caller := msgs,
                   current := msgs ++ assistantToolTurn env.firstResp ::
                     ((prepToolCalls env.parse tcs).1 ++
                       (prepToolCalls env.parse tcs).2.map
                         (fun t => toolResultTurn t (e t.name t.args))) },
        result := GenResult.text (pyOr env.secondContent noAnswerMsg) } := by
  rw [nonStreamRun_def, htc, truthy_cons hne]
  dsimp only
  rw [runToolPhase_eq env e env.firstResp tcs hco]
  dsimp only
  rw [appendTurns_current_eq]

theorem streamRun_tool_eq (env : Env) (msgs : List Turn)
    (tools : Option (List Json)) (e : Executor) (tcs : List ToolCall)
    (hne : tcs ≠ []) (htc : env.firstResp.tool_calls = some tcs)
    (hco : ∀ i, i < (prepToolCalls env.parse tcs).2.length →
      i ∈ env.completionOrder) :
    streamRun env msgs tools (some e) =
      { calls := [mkFirstCall msgs tools,
          { messages := _format_messages_for_api
              (msgs ++ assistantToolTurn env.firstResp ::
                ((prepToolCalls env.parse tcs).1 ++
                  (prepToolCalls env.parse tcs).2.map
                    (fun t => toolResultTurn t (e t.name t.args)))),
            tools := none, tool_choice := none, stream := true }],
        invocations := (prepToolCalls env.parse tcs).2,
        store := { caller := msgs,
                   current := msgs ++ assistantToolTurn env.firstResp ::
                     ((prepToolCalls env.parse tcs).1 ++
                       (prepToolCalls env.parse tcs).2.map
                         (fun t => toolResultTurn t (e t.name t.args))) },
        result := GenResult.fragments (truthyFrags env.secondChunks) } := by
  rw [streamRun_def, htc, truthy_cons hne]
  dsimp only
  rw [runToolPhase_eq env e env.firstResp tcs hco]
  dsimp only
  rw [appendTurns_current_eq]

theorem nonStreamRun_tool_base (env : Env) (msgs : List Turn)
    (tools : Option (List Json)) (e : Executor) (tcs : List ToolCall)
    (hne : tcs ≠ []) (htc : env.firstResp.tool_calls = some tcs) :
    (nonStreamRun env msgs tools (some e)).store.current =
        msgs ++ (runToolPhase env e env.firstResp tcs).1 ∧
    (nonStreamRun env msgs tools (some e)).invocations =
        (prepToolCalls env.parse tcs).2 := by
  rw [nonStreamRun_def, htc, truthy_cons hne]
  dsimp only
  constructor
  · rw [appendTurns_current_eq]
  · rfl

theorem streamRun_tool_base (env : Env) (msgs : List Turn)
    (tools : Option (List Json)) (e : Executor) (tcs : List ToolCall)
    (hne : tcs ≠ []) (htc : env.firstResp.tool_calls = some tcs) :
    (streamRun env msgs tools (some e)).store.current =
        msgs ++ (runToolPhase env e env.firstResp tcs).1 ∧
    (streamRun env msgs tools (some e)).invocations =
        (prepToolCalls env.parse tcs).2 := by
  rw [streamRun_def, htc, truthy_cons hne]
  dsimp only
  constructor
  · rw [appendTurns_current_eq]
  · rfl

/-- C1 (amended): for a first response requesting N tool calls (N ≥ 1,
handled with a tool executor), both flows append exactly N tool-result
turns between the assistant turn and the second completion call,
independent of the completion order of the concurrent invocations: the
invalid-arguments error turns come first, in request order, followed by
the result turns of the dispatched requests, in request order.  (The
frozen claim additionally asserts the combined sequence is ordered by
original request index; that fails when an unparseable request follows
a parseable one — see the counterexample.) -/
theorem c1_tool_result_turns (env : Env) (msgs : List Turn)
    (tools : Option (List Json)) (e : Executor) (tcs : List ToolCall)
    (hne : tcs ≠ []) (htc : env.firstResp.tool_calls = some tcs)
    (hperm : env.completionOrder.Perm
      (List.range (prepToolCalls env.parse tcs).2.length)) :
    (nonStreamRun env msgs tools (some e)).store.current =
        msgs ++ assistantToolTurn env.firstResp ::
          ((prepToolCalls env.parse tcs).1 ++
            (prepToolCalls env.parse tcs).2.map
              (fun t => toolResultTurn t (e t.name t.args))) ∧
    (streamRun env msgs tools (some e)).store.current =
        msgs ++ assistantToolTurn env.firstResp ::
          ((prepToolCalls env.parse tcs).1 ++
            (prepToolCalls env.parse tcs).2.map
              (fun t => toolResultTurn t (e t.name t.args))) ∧
    ((prepToolCalls env.parse tcs).1 ++
      (prepToolCalls env.parse tcs).2.map
        (fun t => toolResultTurn t (e t.name t.args))).length = tcs.length ∧
    ((prepToolCalls env.parse tcs).1 ++
      (prepToolCalls env.parse tcs).2.map
        (fun t => toolResultTurn t (e t.name t.args))).map Turn.tool_call_id =
      ((tcs.filter fun tc => (env.parse tc.arguments).isNone).map
        (fun tc => some (some tc.id))) ++
      ((tcs.filter fun tc => (env.parse tc.arguments).isSome).map
        (fun tc => some (some tc.id))) := by
  have hco : ∀ i, i < (prepToolCalls env.parse tcs).2.length →
      i ∈ env.completionOrder :=
    fun i hi => hperm.mem_iff.mpr (List.mem_range.mpr hi)
  refine ⟨?_, ?_, ?_, ?_⟩
  · rw [nonStreamRun_tool_eq env msgs tools e tcs hne htc hco]
  · rw [streamRun_tool_eq env msgs tools e tcs hne htc hco]
  · rw [List.length_append, List.length_map]
    exact prepToolCalls_length env.parse tcs
  · rw [List.map_append]
    congr 1
    · exact prepToolCalls_err_ids env.parse tcs
    · calc ((prepToolCalls env.parse tcs).2.map
            (fun t => toolResultTurn t (e t.name t.args))).map Turn.tool_call_id
          = (prepToolCalls env.parse tcs).2.map
              (fun t => some (some t.id)) := by
            rw [List.map_map]; rfl
        _ = ((prepToolCalls env.parse tcs).2.map ToolTask.id).map
              (fun i => some (some i)) := by rw [List.map_map]; rfl
        _ = ((tcs.filter fun tc => (env.parse tc.arguments).isSome).map
              ToolCall.id).map (fun i => some (some i)) := by
            rw [prepToolCalls_task_ids]
        _ = (tcs.filter fun tc => (env.parse tc.arguments).isSome).map
              (fun tc => some (some tc.id)) := by rw [List.map_map]; rfl

theorem c1_tool_result_turns_witness :
    (nonStreamRun cexEnvC1 [] none (some stubExec)).store.current =
      [] ++ assistantToolTurn cexEnvC1.firstResp ::
        ((prepToolCalls cexEnvC1.parse c1Tcs).1 ++
          (prepToolCalls cexEnvC1.parse c1Tcs).2.map
            (fun t => toolResultTurn t (stubExec t.name t.args))) :=
  (c1_tool_result_turns cexEnvC1 [] none stubExec c1Tcs
    (by decide) rfl (by decide)).1

/-- C1 counterexample: with requests [a (parseable), b (unparseable)],
the two appended tool-result turns carry correlation ids [b, a] — the
invalid-arguments turn for b is appended during the preparation loop,
before the gathered result turn for a — so the sequence is not ordered
by original request index as the frozen claim states. -/
theorem c1_counterexample :
    ((nonStreamRun cexEnvC1 [] none (some stubExec)).store.current.drop 1).map
        Turn.tool_call_id = [some (some "b"), some (some "a")] ∧
    ([some (some "b"), some (some "a")] ≠
      ([some (some "a"), some (some "b")] : List (Option (Option String)))) :=
  ⟨rfl, by decide⟩

/-- C2: a tool-call request whose arguments string fails JSON parsing
produces, in both flows, a tool-result turn carrying its correlation id
and the fixed invalid-arguments message, and no task with its
correlation id is ever dispatched to the tool executor (ids are
correlation tokens, assumed unique among the requests). -/
theorem c2_unparseable_args (env : Env) (msgs : List Turn)
    (tools : Option (List Json)) (e : Executor) (tcs : List ToolCall)
    (tc : ToolCall) (hne : tcs ≠ []) (htc : env.firstResp.tool_calls = some tcs)
    (hmem : tc ∈ tcs) (hfail : env.parse tc.arguments = none)
    (huniq : ∀ tc2 ∈ tcs, tc2.id = tc.id → tc2 = tc) :
    (invalidArgsTurn tc ∈ (nonStreamRun env msgs tools (some e)).store.current ∧
      ∀ t ∈ (nonStreamRun env msgs tools (some e)).invocations, t.id ≠ tc.id) ∧
    (invalidArgsTurn tc ∈ (streamRun env msgs tools (some e)).store.current ∧
      ∀ t ∈ (streamRun env msgs tools (some e)).invocations, t.id ≠ tc.id) := by
  have herr : invalidArgsTurn tc ∈ (runToolPhase env e env.firstResp tcs).1 :=
    List.mem_cons_of_mem _
      (List.mem_append_left _ (prepToolCalls_err_mem env.parse hmem hfail))
  have hinv : ∀ t ∈ (prepToolCalls env.parse tcs).2, t.id ≠ tc.id := by
    intro t ht heq
    obtain ⟨tc2, hmem2, hp2, hid2, _⟩ := prepToolCalls_task_mem env.parse ht
    have h2 : tc2 = tc := huniq tc2 hmem2 (hid2 ▸ heq)
    rw [h2, hfail] at hp2
    exact Option.noConfusion hp2
  obtain ⟨hcur1, hinv1⟩ := nonStreamRun_tool_base env msgs tools e tcs hne htc
  obtain ⟨hcur2, hinv2⟩ := streamRun_tool_base env msgs tools e tcs hne htc
  refine ⟨⟨?_, ?_⟩, ?_, ?_⟩
  · rw [hcur1]; exact List.mem_append_right _ herr
  · intro t ht; exact hinv t (hinv1 ▸ ht)
  · rw [hcur2]; exact List.mem_append_right _ herr
  · intro t ht; exact hinv t (hinv2 ▸ ht)

theorem c2_unparseable_args_witness :
    invalidArgsTurn { id := "b", name := "g", arguments := "not json" } ∈
      (nonStreamRun cexEnvC1 [] none (some stubExec)).store.current :=
  (c2_unparseable_args cexEnvC1 [] none stubExec c1Tcs
    { id := "b", name := "g", arguments := "not json" }
    (by decide) rfl (by decide) rfl (by decide)).1.1

/-- C3: with a configured client, the first completion request of every
run carries stream=False (written literally at llm_service.py lines 90
and 223), regardless of the caller-requested stream flag. -/
theorem c3_first_call_nonstreaming (env : Env) (msgs : List Turn)
    (tools : Option (List Json)) (ex : Option Executor) (b : Bool) :
    (generate_response true env msgs tools ex b).calls.head? =
        some (mkFirstCall msgs tools) ∧
    (mkFirstCall msgs tools).stream = false := by
  refine ⟨?_, rfl⟩
  cases b
  · rw [show generate_response true env msgs tools ex false =
        nonStreamRun env msgs tools ex from rfl]
    rw [nonStreamRun_def]
    cases truthyToolCalls env.firstResp.tool_calls <;> cases ex <;> rfl
  · rw [show generate_response true env msgs tools ex true =
        streamRun env msgs tools ex from rfl]
    rw [streamRun_def]
    cases truthyToolCalls env.firstResp.tool_calls <;> cases ex <;> rfl

/-- C4: when the tool branch runs, the run issues exactly two
completion requests; the second is over the reformatted full transcript
(original turns, the assistant tool-call turn, then all tool-result
turns), carries no tools argument and no tool_choice, and streams iff
the caller requested streaming. -/
theorem c4_second_call_shape (env : Env) (msgs : List Turn)
    (tools : Option (List Json)) (e : Executor) (tcs : List ToolCall)
    (hne : tcs ≠ []) (htc : env.firstResp.tool_calls = some tcs)
    (hperm : env.completionOrder.Perm
      (List.range (prepToolCalls env.parse tcs).2.length)) (b : Bool) :
    (generate_response true env msgs tools (some e) b).calls =
      [mkFirstCall msgs tools,
       { messages := _format_messages_for_api
           (msgs ++ assistantToolTurn env.firstResp ::
             ((prepToolCalls env.parse tcs).1 ++
               (prepToolCalls env.parse tcs).2.map
                 (fun t => toolResultTurn t (e t.name t.args)))),
         tools := none, tool_choice := none, stream := b }] := by
  have hco : ∀ i, i < (prepToolCalls env.parse tcs).2.length →
      i ∈ env.completionOrder :=
    fun i hi => hperm.mem_iff.mpr (List.mem_range.mpr hi)
  cases b
  · rw [show generate_response true env msgs tools (some e) false =
        nonStreamRun env msgs tools (some e) from rfl]
    rw [nonStreamRun_tool_eq env msgs tools e tcs hne htc hco]
  · rw [show generate_response true env msgs tools (some e) true =
        streamRun env msgs tools (some e) from rfl]
    rw [streamRun_tool_eq env msgs tools e tcs hne htc hco]

theorem c4_second_call_shape_witness :
    (generate_response true cexEnvC1 [] none (some stubExec) false).calls =
      [mkFirstCall [] none,
       { messages := _format_messages_for_api
           ([] ++ assistantToolTurn cexEnvC1.firstResp ::
             ((prepToolCalls cexEnvC1.parse c1Tcs).1 ++
               (prepToolCalls cexEnvC1.parse c1Tcs).2.map
                 (fun t => toolResultTurn t (stubExec t.name t.args)))),
         tools := none, tool_choice := none, stream := false }] :=
  c4_second_call_shape cexEnvC1 [] none stubExec c1Tcs
    (by decide) rfl (by decide) false

/-- C5 (amended): when the first response contains no tool-call
requests, the run issues exactly one completion call and dispatches no
tool invocation; the caller receives the first response content when it
is non-empty, and otherwise the fixed no-answer sentinel (non-streaming)
or a single empty fragment (streaming).  (The frozen claim asserts the
returned value always equals the first response content; the empty /
absent content case falls back instead — see the counterexample.) -/
theorem c5_no_tool_calls (env : Env) (msgs : List Turn)
    (tools : Option (List Json)) (ex : Option Executor) (b : Bool)
    (h : env.firstResp.tool_calls = none ∨ env.firstResp.tool_calls = some []) :
    (generate_response true env msgs tools ex b).calls.length = 1 ∧
    (generate_response true env msgs tools ex b).invocations = [] ∧
    (generate_response true env msgs tools ex b).result =
      (if b then GenResult.fragments [pyOr env.firstResp.content ""]
       else GenResult.text (pyOr env.firstResp.content noAnswerMsg)) := by
  have htr : truthyToolCalls env.firstResp.tool_calls = none := by
    rcases h with h | h <;> rw [h] <;> rfl
  cases b
  · rw [show generate_response true env msgs tools ex false =
        nonStreamRun env msgs tools ex from rfl]
    rw [nonStreamRun_def, htr]
    cases ex <;> exact ⟨rfl, rfl, rfl⟩
  · rw [show generate_response true env msgs tools ex true =
        streamRun env msgs tools ex from rfl]
    rw [streamRun_def, htr]
    cases ex <;> exact ⟨rfl, rfl, rfl⟩

theorem c5_no_tool_calls_witness :
    (generate_response true envPlain [] none none false).calls.length = 1 :=
  (c5_no_tool_calls envPlain [] none none false (Or.inl rfl)).1

/-- C5 counterexample: a no-tool-call first response with content ""
returns the fixed no-answer sentinel rather than the (empty) first
response content, refuting the frozen claim that the returned value
equals the first response content. -/
theorem c5_counterexample :
    (generate_response true cexEnvC5 [] none none false).calls.length = 1 ∧
    (generate_response true cexEnvC5 [] none none false).result =
      GenResult.text noAnswerMsg ∧
    GenResult.text noAnswerMsg ≠ GenResult.text "" :=
  ⟨rfl, rfl, by decide⟩

/-- C6: when the client is unconfigured, no completion call and no tool
invocation happens and the fixed configuration-error message is
returned — as a plain string in non-streaming mode and as a one-element
fragment sequence in streaming mode. -/
theorem c6_unconfigured (env : Env) (msgs : List Turn)
    (tools : Option (List Json)) (ex : Option Executor) (b : Bool) :
    (generate_response false env msgs tools ex b).calls = [] ∧
    (generate_response false env msgs tools ex b).invocations = [] ∧
    (generate_response false env msgs tools ex b).result =
      (if b then GenResult.fragments [configErrorMsg]
       else GenResult.text configErrorMsg) := by
  cases b <;> exact ⟨rfl, rfl, rfl⟩

/-- C7: the message formatter is idempotent, and it is a per-turn
filter (it distributes over append), so the relative order of the
turns it keeps is the input order. -/
theorem c7_format_idempotent (x y z : List Turn) :
    _format_messages_for_api (_format_messages_for_api x) =
        _format_messages_for_api x ∧
    _format_messages_for_api (y ++ z) =
        _format_messages_for_api y ++ _format_messages_for_api z :=
  ⟨format_idem x, format_append y z⟩

/-- C8 (code evaluation at the failing input): a tool turn carrying no
tool_call_id key is KEPT by the formatter — msg_to_add["tool_call_id"]
= m.get("tool_call_id") inserts the key with value None, so the
membership check at llm_service.py line 345 is vacuously true — and is
emitted with tool_call_id None and content defaulted to "".  The claim
(and the skip-else diagnostic of the formatter itself) say such a turn is not
kept. -/
theorem c8_tool_turn_missing_id_kept :
    _format_messages_for_api
        [{ role := some "tool", content := none, tool_calls := none,
           tool_call_id := none, name := none }] =
      [{ role := some "tool", content := some (some ""), tool_calls := none,
         tool_call_id := some none, name := none }] := rfl

/-- C9 (amended): the Tool Invoker equals its specified contract on
every transport outcome: it never lets an exception escape; timeout,
connection failure, non-2xx status and an unparseable body each yield
their descriptive error string; a well-shaped envelope yields the inner
text; when the shape is absent, a JSON-RPC error object yields a
descriptive error string naming the tool and the error message (not
serialized JSON — the frozen claim fails here, see the counterexample),
a non-object body or non-object error value yields the generic
unexpected-error string, and otherwise the result member (or its
content member) is serialized back to JSON text. -/
theorem c9_tool_invoker_contract (toolName : String) (t : Transport) :
    execute_mcp_tool toolName t = toolInvokerSpecified toolName t := by
  cases t with
  | timeout => rfl
  | requestError => rfl
  | resp st b =>
    unfold execute_mcp_tool mcpBody toolInvokerSpecified
    dsimp only
    by_cases hst : st < 200 ∨ 300 ≤ st
    · rw [if_pos hst, if_pos hst]
    · rw [if_neg hst, if_neg hst]
      cases b with
      | none => rfl
      | some j =>
        cases j with
        | null => rfl
        | bool v => rfl
        | num n => rfl
        | str s => rfl
        | arr xs => rfl
        | obj fs =>
          dsimp only
          cases hres : (jget fs "result").getD (Json.obj []) with
          | obj rf =>
            dsimp only
            cases hc : jget rf "content" with
            | some c =>
              dsimp only
              cases c with
              | arr items =>
                cases items with
                | nil => rfl
                | cons first rest =>
                  dsimp only
                  cases first with
                  | obj ff =>
                    dsimp only
                    cases htv : jget ff "text" with
                    | some tv => rfl
                    | none => rfl
                  | null => rfl
                  | bool v => rfl
                  | num n => rfl
                  | str s2 => rfl
                  | arr ys => rfl
              | null => rfl
              | bool v => rfl
              | num n => rfl
              | str s2 => rfl
              | obj gs => rfl
            | none =>
              dsimp only
              unfold mcpFallback
              cases hfb : jget fs "error" with
              | none => rfl
              | some e =>
                dsimp only
                cases e with
                | obj ef => dsimp only
                | null => rfl
                | bool v => rfl
                | num n => rfl
                | str s => rfl
                | arr ys => rfl
          | null =>
            dsimp only
            unfold mcpFallback
            cases hfb : jget fs "error" with
            | none => rfl
            | some e =>
              dsimp only
              cases e with
              | obj ef => dsimp only
              | null => rfl
              | bool v => rfl
              | num n => rfl
              | str s => rfl
              | arr ys => rfl
          | bool v0 =>
            dsimp only
            unfold mcpFallback
            cases hfb : jget fs "error" with
            | none => rfl
            | some e =>
              dsimp only
              cases e with
              | obj ef => dsimp only
              | null => rfl
              | bool v => rfl
              | num n => rfl
              | str s => rfl
              | arr ys => rfl
          | num n0 =>
            dsimp only
            unfold mcpFallback
            cases hfb : jget fs "error" with
            | none => rfl
            | some e =>
              dsimp only
              cases e with
              | obj ef => dsimp only
              | null => rfl
              | bool v => rfl
              | num n => rfl
              | str s => rfl
              | arr ys => rfl
          | str s0 =>
            dsimp only
            unfold mcpFallback
            cases hfb : jget fs "error" with
            | none => rfl
            | some e =>
              dsimp only
              cases e with
              | obj ef => dsimp only
              | null => rfl
              | bool v => rfl
              | num n => rfl
              | str s => rfl
              | arr ys => rfl
          | arr xs0 =>
            dsimp only
            unfold mcpFallback
            cases hfb : jget fs "error" with
            | none => rfl
            | some e =>
              dsimp only
              cases e with
              | obj ef => dsimp only
              | null => rfl
              | bool v => rfl
              | num n => rfl
              | str s => rfl
              | arr ys => rfl

/-- The JSON-RPC error body of the C9 counterexample. -/
def c9Body : Json := Json.obj [("error", Json.obj [("message", Json.str "boom")])]

/-- C9 counterexample: a 2xx response whose JSON body is a JSON-RPC
error envelope (the envelope shape is absent) returns a descriptive
error string naming the tool and the error message — not the raw JSON
serialized back to text as the frozen claim states (neither the body
nor the defaulted result member serializes to that string). -/
theorem c9_counterexample :
    execute_mcp_tool "get_courses" (Transport.resp 200 (some c9Body)) =
        "Error from tool \x27get_courses\x27: boom" ∧
    "Error from tool \x27get_courses\x27: boom" ≠ dumps c9Body ∧
    "Error from tool \x27get_courses\x27: boom" ≠ dumps (Json.obj []) :=
  ⟨rfl, by decide, by decide⟩

/-- C10: the caller-supplied messages list is never mutated: both flows
copy it into current_messages and append only to the copy, so after any
run — configured or not, streaming or not — the caller list is
unchanged. -/
theorem c10_caller_list_unchanged (configured : Bool) (env : Env)
    (msgs : List Turn) (tools : Option (List Json)) (ex : Option Executor)
    (b : Bool) :
    (generate_response configured env msgs tools ex b).store.caller = msgs := by
  cases configured
  · cases b <;> rfl
  · cases b
    · rw [show generate_response true env msgs tools ex false =
          nonStreamRun env msgs tools ex from rfl]
      rw [nonStreamRun_def]
      cases truthyToolCalls env.firstResp.tool_calls with
      | none => cases ex <;> rfl
      | some tcs =>
        cases ex with
        | none => rfl
        | some e =>
          dsimp only
          rw [appendTurns_current_eq]
    · rw [show generate_response true env msgs tools ex true =
          streamRun env msgs tools ex from rfl]
      rw [streamRun_def]
      cases truthyToolCalls env.firstResp.tool_calls with
      | none => cases ex <;> rfl
      | some tcs =>
        cases ex with
        | none => rfl
        | some e =>
          dsimp only
          rw [appendTurns_current_eq]
